import Mathlib

/-!
Verification of the qtune repository (solver.py, util.py, Analyzer.py)
against its natural-language specification.

Numeric values are modelled as rationals (`ℚ`); a possibly-NaN pandas cell is
an `Option ℚ` (`none` = NaN).  Fallible Python code is embedded in
`Except PyErr`.  Mutation (numpy in-place updates, solver state) is embedded
by explicit state passing.
-/

-- Batteries marks `Rat.add`, `Rat.sub`, `Rat.mul` and `Rat.inv` as
-- `@[irreducible]`; restore the default transparency so that concrete rational
-- computations in the theorems below reduce (`decide`/`rfl`).
attribute [local semireducible] Rat.add Rat.sub Rat.mul Rat.inv

deriving instance DecidableEq for Except

/-- The kinds of Python exceptions raised by the embedded code. -/
inductive PyErr where
  | keyError
  | valueError
  | indexError
  | assertionError
  | linAlgError
  | eofError
  | overflowError
  | runtimeError (msg : String)
  deriving DecidableEq, Repr

/-- Python `int(x)` on a float: truncation toward zero. -/
def pyIntTrunc (q : ℚ) : ℤ :=
  if 0 ≤ q then ⌊q⌋ else ⌈q⌉

/-- Python `round(x)` (banker's rounding: ties go to the even integer). -/
def pyRound (q : ℚ) : ℤ :=
  let f := q - (⌊q⌋ : ℚ)
  if f < 1/2 then ⌊q⌋
  else if 1/2 < f then ⌊q⌋ + 1
  else if 2 ∣ ⌊q⌋ then ⌊q⌋ else ⌊q⌋ + 1

/-- `np.linspace(a, b, n)`: `n` evenly spaced samples over `[a, b]`. -/
def np_linspace (a b : ℚ) (n : ℕ) : List ℚ :=
  if n = 0 then []
  else if n = 1 then [a]
  else (List.range n).map fun (i : ℕ) => a + (b - a) * (i : ℚ) / ((n - 1 : ℕ) : ℚ)

/-- Helper for `np_argmax`: fold tracking the best value, its index, and the
current index; `>` keeps the first occurrence of the maximum, as numpy does. -/
def np_argmax_go : List ℚ → ℚ → ℕ → ℕ → ℕ
  | [], _, bi, _ => bi
  | a :: as_, bv, bi, ci => if bv < a then np_argmax_go as_ a ci (ci + 1)
                            else np_argmax_go as_ bv bi (ci + 1)

/-- `np.argmax`: index of the first maximum; numpy raises `ValueError` on an
empty array, modelled as `none`. -/
def np_argmax : List ℚ → Option ℕ
  | [] => none
  | x :: xs => some (np_argmax_go xs x 0 1)

/-!
### util.py: `nth_diff` (src/qtune/util.py lines 51–55)

    def nth_diff(data, n):
        data_diff = np.ndarray((len(data) - n, ))
        for i in range(0, len(data) - n):
            data_diff[i] = data[i] - data[i+n]
        return data_diff

`np.ndarray((len(data) - n,))` raises `ValueError` when `len(data) - n` is
negative.  Lag `n` is a natural number (all call sites use a nonnegative lag).
-/
def nth_diff (data : List ℚ) (n : ℕ) : Except PyErr (List ℚ) :=
  if data.length < n then .error .valueError
  else .ok ((List.range (data.length - n)).map fun i => data.getD i 0 - data.getD (i + n) 0)

/-!
### util.py: `find_lead_transition` (src/qtune/util.py lines 27–48)

    def find_lead_transition(data, center, scan_range, npoints, width=.2e-3):
        if len(data.shape) == 2:      y = np.mean(data, 0)
        elif len(data.shape) == 1:    y = data            # alias: mutations hit the caller's array
        else:                          print(...); return np.nan
        x = np.linspace(center - scan_range, center + scan_range, npoints)
        n = int(width/scan_range*npoints)
        for i in range(0, len(y)-n-1):
            y[i] -= y[i+n]
        y_red = y[0:len(y) - n - 1]
        x_red = x[0:len(y) - n - 1]   # computed but unused: the return indexes the full x
        y_red = np.absolute(y_red)
        max_index = int(np.argmax(y_red) + int(round(n / 2)))
        return x[max_index]
-/

/-- A numpy array argument by dimensionality: 1-D, 2-D, or some other
dimensionality (only the dimension count matters on that branch). -/
inductive NpData where
  | d1 (xs : List ℚ)
  | d2 (xss : List (List ℚ))
  | dOther (ndim : ℕ)
  deriving DecidableEq, Repr

/-- `np.mean(data, 0)`: column means of a (rectangular) 2-D array. -/
def np_colmeans (xss : List (List ℚ)) : List ℚ :=
  (List.range (xss.headD []).length).map fun j =>
    (xss.map fun row => row.getD j 0).sum / (xss.length : ℚ)

/-- The in-place differencing loop `for i in range(0, len(y)-n-1): y[i] -= y[i+n]`,
embedded by threading the array state through `List.set`. -/
def lead_diff_loop (y : List ℚ) (n : ℕ) : List ℚ :=
  (List.range (y.length - n - 1)).foldl
    (fun acc i => acc.set i (acc.getD i 0 - acc.getD (i + n) 0)) y

/-- The body of `find_lead_transition` shared by the 1-D and 2-D branches,
with the lag `n` already computed.  Returns the result together with the final
contents of `y` (which alias the caller's array in the 1-D case).
`x_red`/`y_red` slicing, `np.absolute`, `argmax` and the final `x[max_index]`
follow the source; an out-of-range `x[max_index]` is an `IndexError` and
`np.argmax` of an empty slice a `ValueError`. -/
def flt_body (y : List ℚ) (x : List ℚ) (n : ℕ) : Except PyErr ℚ × List ℚ :=
  let y2 := lead_diff_loop y n
  let y_red := (y2.take (y2.length - n - 1)).map (fun q => |q|)
  match np_argmax y_red with
  | none => (.error .valueError, y2)
  | some am =>
    let max_index := am + (pyRound ((n : ℚ) / 2)).toNat
    match x.get? max_index with
    | some xv => (.ok xv, y2)
    | none => (.error .indexError, y2)

/-- `find_lead_transition` from src/qtune/util.py.  The first component is the
returned value (`none` models the `np.nan` returned on the wrong-dimension
branch), the second the array the caller's `data` refers to afterwards.
`scan_range = 0` models Python's `int(float('inf'))`/`int(float('nan'))`
`OverflowError`/`ValueError` from `width/0.0`; a negative lag (negative
`width`/`scan_range`, used by no caller) is not modelled (`Int.toNat`). -/
def find_lead_transition (data : NpData) (center scan_range : ℚ) (npoints : ℕ)
    (width : ℚ) : Except PyErr (Option ℚ) × NpData :=
  match data with
  | .d1 xs =>
    if scan_range = 0 then (.error .overflowError, .d1 xs)
    else
      let x := np_linspace (center - scan_range) (center + scan_range) npoints
      let n := (pyIntTrunc (width / scan_range * npoints)).toNat
      let (r, y2) := flt_body xs x n
      (r.map some, .d1 y2)
  | .d2 xss =>
    if scan_range = 0 then (.error .overflowError, .d2 xss)
    else
      let x := np_linspace (center - scan_range) (center + scan_range) npoints
      let n := (pyIntTrunc (width / scan_range * npoints)).toNat
      let (r, _) := flt_body (np_colmeans xss) x n
      (r.map some, .d2 xss)
  | .dOther k => (.ok none, .dOther k)

/-- Modelled from the claim's words (claim C7), for comparison with
`find_lead_transition`: identical pipeline except that the lag is
`n = round(width/scan_range*npoints)` (rounded, not truncated), as the claim
states it.  Only the 1-D case is needed for the comparison. -/
def find_lead_transition_claim (xs : List ℚ) (center scan_range : ℚ)
    (npoints : ℕ) (width : ℚ) : Except PyErr (Option ℚ) :=
  if scan_range = 0 then .error .overflowError
  else
    let x := np_linspace (center - scan_range) (center + scan_range) npoints
    let n := (pyRound (width / scan_range * npoints)).toNat
    ((flt_body xs x n).1).map some

/-!
### Matrix helpers (numpy linear algebra over `ℚ`)

Matrices are lists of rows.
-/

/-- Dot product of two equal-length vectors. -/
def dotL (a b : List ℚ) : ℚ := (List.zipWith (· * ·) a b).sum

/-- Transpose, with column count taken from the first row. -/
def matTranspose (m : List (List ℚ)) : List (List ℚ) :=
  (List.range (m.headD []).length).map fun j => m.map fun row => row.getD j 0

/-- `np.dot` on matrices. -/
def matMul (a b : List (List ℚ)) : List (List ℚ) :=
  a.map fun row => (matTranspose b).map (dotL row)

/-- `np.dot` of a matrix and a vector. -/
def matVec (a : List (List ℚ)) (v : List ℚ) : List ℚ := a.map fun row => dotL row v

/-- `np.zeros((r, c))`. -/
def zerosMat (r c : ℕ) : List (List ℚ) :=
  (List.range r).map fun _ => (List.range c).map fun _ => (0 : ℚ)

/-- Laplace expansion along the first row, structurally recursive on a fuel
argument (one unit per row) so that concrete determinants evaluate. -/
def matDetGo : ℕ → List (List ℚ) → ℚ
  | _, [] => 1
  | 0, _ :: _ => 1
  | fuel + 1, r0 :: rest =>
    ((List.range r0.length).map fun j =>
      (-1 : ℚ) ^ j * r0.getD j 0 * matDetGo fuel (rest.map fun row => row.eraseIdx j)).sum

/-- Determinant by Laplace expansion along the first row. -/
def matDet (m : List (List ℚ)) : ℚ := matDetGo m.length m

/-- Delete row `i` and column `j`. -/
def matDelete (m : List (List ℚ)) (i j : ℕ) : List (List ℚ) :=
  (m.eraseIdx i).map fun row => row.eraseIdx j

/-- Matrix inverse via the adjugate: entry `(i, j)` is
`(-1)^(i+j) · det(delete row j, column i) / det`.  Callers check the
determinant first (`np.linalg.inv` raises on a singular matrix). -/
def matInv (m : List (List ℚ)) : List (List ℚ) :=
  let n := m.length
  let d := matDet m
  (List.range n).map fun i => (List.range n).map fun j =>
    (-1 : ℚ) ^ (i + j) * matDet (matDelete m j i) / d

/-- Elementwise vector subtraction; numpy raises on a length mismatch
(length-1 broadcasting is not used by any call site and not modelled). -/
def vecSub (a b : List ℚ) : Except PyErr (List ℚ) :=
  if a.length = b.length then .ok (List.zipWith (· - ·) a b) else .error .valueError

/-- Row assignment `m[i] = v` (the source writes `m[:][i] = v`; `[:]` is an
identity view on a numpy array).  Out-of-range rows are an `IndexError`,
a length mismatch a broadcast `ValueError`. -/
def setRow (m : List (List ℚ)) (i : ℕ) (v : List ℚ) : Except PyErr (List (List ℚ)) :=
  match m.get? i with
  | none => .error .indexError
  | some row => if row.length = v.length then .ok (m.set i v) else .error .valueError

/-!
### util.py: `gradient_min_evaluations` (src/qtune/util.py lines 81–106)

    n_points = len(voltage_points)
    assert(len(voltage_points) == len(parameters))
    n_parameters = parameters[0].size
    n_gates = voltage_points[0].size
    voltage_diff = np.zeros((n_gates, n_gates))
    parameter_diff = np.zeros((n_parameters, n_gates))
    if n_points == n_gates + 1:
        for i in range(1, n_points):
            voltage_diff[:][i - 1] = voltage_points[i] - voltage_points[0]
            parameter_diff[:][i - 1] = parameters[i] - parameters[0]
    elif n_points == 2 * n_gates:
        for i in range(n_gates):
            voltage_diff[:][i] = voltage_points[2 * i + 1] - voltage_points[2 * i]
            parameter_diff[:][i] = parameters[2 * i + 1] - parameters[2 * i]
    gradient = np.dot(parameter_diff, np.linalg.inv(voltage_diff))
    return gradient
-/

/-- One iteration of the `n_points == n_gates + 1` loop: difference against
point 0 written into row `i - 1` of each accumulator. -/
def gmeStepRef (voltage_points parameters : List (List ℚ))
    (st : List (List ℚ) × List (List ℚ)) (i : ℕ) :
    Except PyErr (List (List ℚ) × List (List ℚ)) := do
  let dv ← vecSub (voltage_points.getD i []) (voltage_points.getD 0 [])
  let vd ← setRow st.1 (i - 1) dv
  let dp ← vecSub (parameters.getD i []) (parameters.getD 0 [])
  let pd ← setRow st.2 (i - 1) dp
  .ok (vd, pd)

/-- One iteration of the `n_points == 2 * n_gates` loop: paired differences
written into row `i`. -/
def gmeStepPaired (voltage_points parameters : List (List ℚ))
    (st : List (List ℚ) × List (List ℚ)) (i : ℕ) :
    Except PyErr (List (List ℚ) × List (List ℚ)) := do
  let dv ← vecSub (voltage_points.getD (2 * i + 1) []) (voltage_points.getD (2 * i) [])
  let vd ← setRow st.1 i dv
  let dp ← vecSub (parameters.getD (2 * i + 1) []) (parameters.getD (2 * i) [])
  let pd ← setRow st.2 i dp
  .ok (vd, pd)

/-- The difference matrices `(voltage_diff, parameter_diff)` built by the
branch on `n_points`. -/
def gmeDiffMatrices (parameters voltage_points : List (List ℚ))
    (n_points n_parameters n_gates : ℕ) :
    Except PyErr (List (List ℚ) × List (List ℚ)) :=
  let z := (zerosMat n_gates n_gates, zerosMat n_parameters n_gates)
  if n_points = n_gates + 1 then
    (List.range' 1 (n_points - 1)).foldlM (gmeStepRef voltage_points parameters) z
  else if n_points = 2 * n_gates then
    (List.range n_gates).foldlM (gmeStepPaired voltage_points parameters) z
  else
    .ok z

/-- `gradient_min_evaluations` from src/qtune/util.py. -/
def gradient_min_evaluations (parameters voltage_points : List (List ℚ)) :
    Except PyErr (List (List ℚ)) := do
  let n_points := voltage_points.length
  if parameters.length ≠ voltage_points.length then .error .assertionError else
  match parameters, voltage_points with
  | p0 :: _, v0 :: _ => do
    let n_parameters := p0.length
    let n_gates := v0.length
    let (voltage_diff, parameter_diff) ←
      gmeDiffMatrices parameters voltage_points n_points n_parameters n_gates
    if matDet voltage_diff = 0 then .error .linAlgError
    else .ok (matMul parameter_diff (matInv voltage_diff))
  | _, _ => .error .indexError

/-!
### A pandas model for solver.py

A `pd.Series` is a list of (label, value) pairs; a possibly-NaN numeric value
is `Option ℚ`.  Pandas-specific behaviours used by solver.py — index alignment
with a sorted union on arithmetic, NaN for labels missing from an operand,
positional assignment for `s[labels] = other_series`, and `bool(series)`
raising `ValueError` — are modelled below.
-/

/-- A nullable numeric pandas cell (`none` = NaN). -/
abbrev Val := Option ℚ

/-- A `pd.Series` with value type `α`. -/
abbrev PdSeries (α : Type) := List (String × α)

/-- The index (label list) of a series. -/
def sIndex {α : Type} (s : PdSeries α) : List String := s.map Prod.fst

/-- Label lookup: value at the first occurrence of label `k`. -/
def sGet {α : Type} (s : PdSeries α) (k : String) : Option α :=
  (s.find? fun kv => kv.1 = k).map Prod.snd

/-- Lexicographic comparison of strings by character code (the order pandas
sorts an index union with; structural, unlike `String.lt`, so that concrete
statements evaluate). -/
def strLtB : List Char → List Char → Bool
  | [], [] => false
  | [], _ :: _ => true
  | _ :: _, [] => false
  | a :: as_, b :: bs =>
    if a.val < b.val then true
    else if b.val < a.val then false
    else strLtB as_ bs

/-- Insert a label into a sorted, duplicate-free label list. -/
def insertSortedLabel (x : String) : List String → List String
  | [] => [x]
  | y :: ys =>
    if x = y then y :: ys
    else if strLtB x.data y.data then x :: y :: ys
    else y :: insertSortedLabel x ys

/-- `Index.union`: sorted union of two label lists (pandas sorts the union of
two distinct indexes). -/
def unionSortedLabels (a b : List String) : List String :=
  (a ++ b).foldr insertSortedLabel []

/-- NaN-propagating subtraction of cells. -/
def valSub : Val → Val → Val
  | some x, some y => some (x - y)
  | _, _ => none

/-- Pandas `Series - Series`: aligned elementwise when the indexes are
identical, otherwise reindexed onto the sorted union with NaN for any label
missing from either operand. -/
def sSub (a b : PdSeries Val) : PdSeries Val :=
  if sIndex a = sIndex b then
    List.zipWith (fun p q => (p.1, valSub p.2 q.2)) a b
  else
    (unionSortedLabels (sIndex a) (sIndex b)).map fun k =>
      (k, valSub ((sGet a k).join) ((sGet b k).join))

/-- `Series + ndarray` (pandas series plus a plain numpy vector): elementwise
with the series' own index; a length mismatch is a `ValueError`; NaN cells
stay NaN. -/
def sAddVec (s : PdSeries Val) (v : List ℚ) : Except PyErr (PdSeries Val) :=
  if s.length = v.length then
    .ok (List.zipWith (fun kv q => (kv.1, kv.2.map (· + q))) s v)
  else .error .valueError

/-- Last-occurrence lookup in an association list (for duplicate labels in a
positional assignment, the later write wins). -/
def lookupLast {α : Type} (l : List (String × α)) (k : String) : Option α :=
  (l.reverse.find? fun kv => kv.1 = k).map Prod.snd

/-- Pandas `s[labels] = values` (label-based assignment with a list of labels
and a positionally matched value list): every label must already be in the
index (otherwise `ValueError`), the lengths must agree, and each listed label's
cell is overwritten. -/
def sSetLabels {α : Type} (s : PdSeries α) (ls : List String) (vs : List α) :
    Except PyErr (PdSeries α) :=
  if ls.length = vs.length ∧ ls.all fun l => (sIndex s).contains l then
    .ok (s.map fun kv =>
      match lookupLast (ls.zip vs) kv.1 with
      | some v => (kv.1, v)
      | none => kv)
  else .error .valueError

/-- Pandas `s[labels]` (label-list selection): each label's first matching
value, in the order requested; a missing label is an error (the call sites in
the claims always select present labels). -/
def sGetLabels {α : Type} (s : PdSeries α) (ls : List String) :
    Except PyErr (PdSeries α) :=
  if ls.all fun l => (sIndex s).contains l then
    .ok (ls.filterMap fun l => (sGet s l).map fun v => (l, v))
  else .error .keyError

/-!
### solver.py: `NewtonSolver` (src/qtune/solver.py lines 52–104)
-/

/-- One row of the solver's target table (`desired`/`minimum`/`maximum`
columns of the `make_target` frame). -/
structure TargetRow where
  desired : Val
  minimum : Val
  maximum : Val
  deriving DecidableEq, Repr

/-- The target `pd.DataFrame` (index = parameter names). -/
structure Target where
  rows : PdSeries TargetRow
  deriving DecidableEq, Repr

/-- The `desired` column as a series over the parameter index. -/
def Target.desired (t : Target) : PdSeries Val :=
  t.rows.map fun kv => (kv.1, kv.2.desired)

/-- An external `GradientEstimator` (qtune.gradient), reduced to the
observable contract solver.py uses: `estimate()` returns the current gradient
row and `require_measurement()` either no suggestion or a concrete voltage
point (§6 of the spec; `if suggestion:` is truthy exactly on a concrete
suggestion). -/
structure GradientEstimator where
  estimate : List ℚ
  require_measurement : Option (PdSeries Val)
  deriving DecidableEq, Repr

/-- `NewtonSolver` state. -/
structure NewtonSolverState where
  target : Target
  gradient_estimators : List GradientEstimator
  current_position : Option (PdSeries Val)
  current_values : PdSeries Val
  deriving DecidableEq, Repr

/-- `NewtonSolver.__init__`: stores target and estimators, asserts
`len(target) == len(estimators)`, then evaluates `if current_values:` —
`bool(pd.Series)` raises `ValueError` ("truth value of a Series is
ambiguous") for any series, so a non-None `current_values` is fatal and the
else-branch stores an all-NaN series over the target index. -/
def NewtonSolver.init (target : Target) (gradient_estimators : List GradientEstimator)
    (current_position : Option (PdSeries Val) := none)
    (current_values : Option (PdSeries Val) := none) :
    Except PyErr NewtonSolverState :=
  if target.rows.length ≠ gradient_estimators.length then .error .assertionError
  else
    match current_values with
    | some _ => .error .valueError
    | none =>
      .ok { target := target
            gradient_estimators := gradient_estimators
            current_position := current_position
            current_values := target.rows.map fun kv => (kv.1, (none : Val)) }

/-- The `jacobian` property: `pd.DataFrame(gradients, columns=target.index)`;
a gradient row whose length differs from the column count is a shape
`ValueError`. -/
def NewtonSolver.jacobian (s : NewtonSolverState) : Except PyErr (List (List ℚ)) :=
  let gradients := s.gradient_estimators.map GradientEstimator.estimate
  if gradients.all fun r => r.length = s.target.rows.length then .ok gradients
  else .error .valueError

/-- The `require_measurement()` sweep: the first estimator returning a
concrete suggestion short-circuits. -/
def first_measurement_suggestion : List GradientEstimator → Option (PdSeries Val)
  | [] => none
  | e :: es =>
    match e.require_measurement with
    | some sug => some sug
    | none => first_measurement_suggestion es

/-- `np.linalg.lstsq(a, b)`.  Raises `LinAlgError` when the row counts of `a`
and `b` differ ("Incompatible dimensions") or when `b` contains NaN (the SVD
does not converge).  For a full-column-rank system the least-squares solution
is `(aᵀa)⁻¹ aᵀ b`; the rank-deficient minimum-norm case is reached by no
claim and reported as singular. -/
def np_lstsq (a : List (List ℚ)) (b : List Val) : Except PyErr (List ℚ) :=
  if a.length ≠ b.length then .error .linAlgError
  else
    match b.mapM id with
    | none => .error .linAlgError
    | some bv =>
      let at_ := matTranspose a
      let ata := matMul at_ a
      if matDet ata = 0 then .error .linAlgError
      else .ok (matVec (matMul (matInv ata) at_) bv)

/-- `NewtonSolver.suggest_next_voltage` (src/qtune/solver.py lines 79–92):
ask each estimator for a measurement suggestion (first one wins); otherwise
require an initialized position, compute
`required_diff = target.desired - current_position`, solve
`jacobian · step = required_diff` by least squares and return
`current_position + step`. -/
def NewtonSolver.suggest_next_voltage (s : NewtonSolverState) :
    Except PyErr (PdSeries Val) :=
  match first_measurement_suggestion s.gradient_estimators with
  | some suggestion => .ok suggestion
  | none =>
    match s.current_position with
    | none => .error (.runtimeError "NewtonSolver: Position not initialized.")
    | some pos => do
      let required_diff := sSub s.target.desired pos
      let jac ← NewtonSolver.jacobian s
      let step ← np_lstsq jac (required_diff.map Prod.snd)
      sAddVec pos step

/-!
### solver.py: `ForwardingSolver` (src/qtune/solver.py lines 136–175)
-/

/-- `ForwardingSolver` state: the parameter→voltage renaming series (values
are voltage-channel names), the current position and the staged next
voltage. -/
structure ForwardingSolverState where
  target : Target
  parameter_to_voltage : PdSeries String
  current_position : PdSeries Val
  next_voltage : PdSeries Val
  deriving DecidableEq, Repr

/-- `ForwardingSolver.__init__` with the default `next_voltage=None`: the
staged next voltage starts as a copy of the current position.  (With a
non-None `next_voltage` the source evaluates `next_voltage[self._current_position]`,
indexing by the position's float values — exercised by no claim and not
modelled.) -/
def ForwardingSolver.init (target : Target) (parameter_to_voltage : PdSeries String)
    (current_position : PdSeries Val) : ForwardingSolverState :=
  { target := target
    parameter_to_voltage := parameter_to_voltage
    current_position := current_position
    next_voltage := current_position }

/-- `ForwardingSolver.suggest_next_voltage`: returns the staged next voltage
verbatim. -/
def ForwardingSolver.suggest_next_voltage (s : ForwardingSolverState) : PdSeries Val :=
  s.next_voltage

/-- `ForwardingSolver.update_after_step` (src/qtune/solver.py lines 165–170):

    self._current_position[voltages.index] = voltages
    self._next_voltage[voltages.index] = voltages
    new_voltage_names = self._parameter_to_voltage[parameters.index]
    self._next_voltage[new_voltage_names] = parameters

(`variances` is unused by this solver.) -/
def ForwardingSolver.update_after_step (s : ForwardingSolverState)
    (voltages parameters : PdSeries Val) : Except PyErr ForwardingSolverState := do
  let pos ← sSetLabels s.current_position (sIndex voltages) (voltages.map Prod.snd)
  let nv1 ← sSetLabels s.next_voltage (sIndex voltages) (voltages.map Prod.snd)
  let new_voltage_names ← sGetLabels s.parameter_to_voltage (sIndex parameters)
  let nv2 ← sSetLabels nv1 (new_voltage_names.map Prod.snd) (parameters.map Prod.snd)
  .ok { s with current_position := pos, next_voltage := nv2 }

/-!
### Analyzer.py: the container-file model

Only the structure Analyzer.py navigates is modelled: an HDF5 file with
`tunerun_<N>` groups holding `charge_diagram_<k>` groups (gradient /
heuristic_covariance / optional heuristic_noise datasets), `gradient_setup_<k>`
groups (attributes `delta_u`, `n_repetitions` and `*_detune_run_<gate>_<i>`
child step groups), and a `tune_sequence` of `step_<i>` groups.  Dataset
contents are rational matrices; evaluator attributes are string-keyed scalars.
Console input (`input()`) is an explicit list of pending reply strings.
Side effects that touch no claimed output (`print` diagnostics and the
Analyzer's cached `parameter_names`) are not modelled.
-/

/-- Is `pat` a prefix of `l`? (structural, over character lists). -/
def charPrefixOf : List Char → List Char → Bool
  | [], _ => true
  | _ :: _, [] => false
  | a :: as_, b :: bs => a = b && charPrefixOf as_ bs

/-- Does `l` contain `pat` as a contiguous sublist? -/
def charContains : List Char → List Char → Bool
  | _, [] => true
  | [], _ :: _ => false
  | a :: as_, p :: ps => charPrefixOf (p :: ps) (a :: as_) || charContains as_ (p :: ps)

/-- Substring test (Python's `"pat" in s`). -/
def strContains (s pat : String) : Bool := charContains s.data pat.data

/-- Lookup in a `ℕ`-keyed association list (numbered groups). -/
def lookupNat {α : Type} (l : List (ℕ × α)) (k : ℕ) : Option α :=
  (l.find? fun kv => kv.1 = k).map Prod.snd

/-- Lookup in a `String`-keyed association list (named groups/datasets). -/
def lookupStr {α : Type} (l : List (String × α)) (k : String) : Option α :=
  (l.find? fun kv => kv.1 = k).map Prod.snd

/-- An HDF5 dataset holding an evaluator's raw trace matrix plus its
`parameter_*` (and other) scalar attributes. -/
structure H5Dataset where
  data : List (List ℚ)
  attrs : List (String × ℚ)
  deriving DecidableEq, Repr

/-- A measurement step group (`step_<i>` or `*_detune_run_<gate>_<i>`):
its named datasets. -/
structure H5StepGroup where
  datasets : List (String × H5Dataset)
  deriving DecidableEq, Repr

/-- A `charge_diagram_<k>` group: `gradient` and `heuristic_covariance`
datasets (absence is a `KeyError` on access) and an optional
`heuristic_noise`. -/
structure H5CDGroup where
  gradient : Option (List (List ℚ))
  heuristic_covariance : Option (List (List ℚ))
  heuristic_noise : Option (List (List ℚ))
  deriving DecidableEq, Repr

/-- A `gradient_setup_<k>` group: the `delta_u` / `n_repetitions` attributes
and the named `positive_detune_run_*` / `negative_detune_run_*` child step
groups. -/
structure H5GradGroup where
  delta_u : ℚ
  n_repetitions : ℕ
  detuneRuns : List (String × H5StepGroup)
  deriving DecidableEq, Repr

/-- A `tunerun_<N>` group. -/
structure H5Run where
  tuneSequenceSteps : Option (List (ℕ × H5StepGroup))
  gradientSetups : List (ℕ × H5GradGroup)
  chargeDiagrams : List (ℕ × H5CDGroup)
  deriving DecidableEq, Repr

/-- The container file: root `gate_names` / `tunable_gate_names` datasets and
the numbered `tunerun_<N>` groups. -/
structure H5File where
  gate_names : List String
  tunable_gate_names : List String
  runs : List (ℕ × H5Run)
  deriving DecidableEq, Repr

/-- A gradient / covariance / optional-noise triple. -/
structure GradTriple where
  gradient : List (List ℚ)
  heuristic_covariance : List (List ℚ)
  heuristic_noise : Option (List (List ℚ))
  deriving DecidableEq, Repr

/-- `load_gradient_from_group` (src/qtune/Analyzer.py lines 469–476): read
`gradient` and `heuristic_covariance` (KeyError when absent), and
`heuristic_noise` when present. -/
def load_gradient_from_group (g : H5CDGroup) : Except PyErr GradTriple :=
  match g.gradient, g.heuristic_covariance with
  | some gr, some cov => .ok ⟨gr, cov, g.heuristic_noise⟩
  | _, _ => .error .keyError

/-- `Analyzer.load_tune_run_group` (src/qtune/Analyzer.py lines 406–413):
resolve `tunerun_<n>` or raise `KeyError` after a printed diagnostic.  (Its
side call to `load_parameter_names` affects no claimed output.) -/
def load_tune_run_group (f : H5File) (n : ℕ) : Except PyErr H5Run :=
  match lookupNat f.runs n with
  | some r => .ok r
  | none => .error .keyError

/-- `Analyzer.load_cd_gradient` (src/qtune/Analyzer.py lines 51–66).  When
`charge_diagram_<k>` is absent and `n > 0` the source calls itself on `n - 1`
but DISCARDS the result (there is no `return`), then unconditionally indexes
`tune_run_group["charge_diagram_<k>"]` — a `KeyError` on the very run that was
just found lacking. -/
def load_cd_gradient (f : H5File) (gradient_number : ℕ) :
    (tune_run_number : ℕ) → Except PyErr GradTriple
  | 0 => do
    let tune_run_group ← load_tune_run_group f 0
    match lookupNat tune_run_group.chargeDiagrams gradient_number with
    | none => Except.error PyErr.keyError
    | some cd_group => load_gradient_from_group cd_group
  | m + 1 => do
    let tune_run_group ← load_tune_run_group f (m + 1)
    match lookupNat tune_run_group.chargeDiagrams gradient_number with
    | none => do
      -- fallback: result computed, then dropped on the floor
      let _ ← load_cd_gradient f gradient_number m
      Except.error PyErr.keyError
    | some cd_group => load_gradient_from_group cd_group

/-- `Analyzer.load_gradient_group` (src/qtune/Analyzer.py lines 415–438):
resolve `gradient_setup_<k>` under run `n`; when absent and `n > 0`, prompt
Y/N for a fallback to run `n - 1` (Y recurses downward, N raises `KeyError`,
anything else re-prompts); when absent and `n == 0`, raise `KeyError`.
`inputs` is the pending console input; exhausting it is an `EOFError`.
Returns the group together with the unconsumed input. -/
def load_gradient_group (f : H5File) (gradient_number : ℕ) :
    (tune_run_number : ℕ) → (inputs : List String) →
    Except PyErr (H5GradGroup × List String)
  | n, [] => do
    let tune_run_group ← load_tune_run_group f n
    match lookupNat tune_run_group.gradientSetups gradient_number with
    | some g => .ok (g, [])
    | none =>
      match n with
      | _ + 1 => .error .eofError
      | 0 => .error .keyError
  | n, decision :: rest => do
    let tune_run_group ← load_tune_run_group f n
    match lookupNat tune_run_group.gradientSetups gradient_number with
    | some g => .ok (g, decision :: rest)
    | none =>
      match n with
      | m + 1 =>
        if decision = "Y" then load_gradient_group f gradient_number m rest
        else if decision = "N" then .error .keyError
        else load_gradient_group f gradient_number (m + 1) rest
      | 0 => .error .keyError

/-- `Analyzer.load_evaluator_names` (src/qtune/Analyzer.py lines 316–333):
evaluator dataset names (name contains `evaluator_`) from
`tune_sequence/step_0` when present, else from the first gradient setup's
`negative_detune_run_<first tunable gate>_0` group. -/
def load_evaluator_names (f : H5File) (tune_run_number : ℕ) (inputs : List String) :
    Except PyErr (List String × List String) := do
  let tune_run_group ← load_tune_run_group f tune_run_number
  match tune_run_group.tuneSequenceSteps.bind (fun steps => lookupNat steps 0) with
  | some step0 =>
    .ok ((step0.datasets.map Prod.fst).filter (fun nm => strContains nm "evaluator_"), inputs)
  | none => do
    let (first_gradient_group, rest) ← load_gradient_group f 1 tune_run_number inputs
    match f.tunable_gate_names.head? with
    | none => .error .indexError
    | some gate0 =>
      match lookupStr first_gradient_group.detuneRuns
          ("negative_detune_run_" ++ gate0 ++ "_0") with
      | some run_group =>
        .ok ((run_group.datasets.map Prod.fst).filter
              (fun nm => strContains nm "evaluator_"), rest)
      | none => .error .keyError

/-- `Analyzer.load_raw_measurement_pd` (src/qtune/Analyzer.py lines 191–198):
per evaluator name, the raw dataset (`KeyError` when missing) and its
attribute dictionary. -/
def load_raw_measurement_pd (evaluator_names : List String) (step_group : H5StepGroup) :
    Except PyErr (PdSeries (List (List ℚ)) × PdSeries (List (String × ℚ))) :=
  evaluator_names.foldlM
    (fun acc e =>
      match lookupStr step_group.datasets e with
      | some ds => .ok (acc.1 ++ [(e, ds.data)], acc.2 ++ [(e, ds.attrs)])
      | none => .error .keyError)
    ([], [])

/-- A `pd.DataFrame` whose cells start as NaN (`none`) and get filled in:
outer list = columns (gates), inner = rows (evaluators). -/
abbrev PdFrame (α : Type) := List (String × List (String × Option α))

instance pdRowDecEq {α : Type} [DecidableEq α] :
    DecidableEq (List (String × Option α)) := inferInstance

instance pdFrameDecEq {α : Type} [DecidableEq α] : DecidableEq (PdFrame α) :=
  inferInstance

/-- `pd.DataFrame(index=evaluators, columns=gates)`: every cell NaN. -/
def emptyFrame {α : Type} (gates evaluators : List String) : PdFrame α :=
  gates.map fun g => (g, evaluators.map fun e => (e, (none : Option α)))

/-- `df[gate][evaluator]`. -/
def frameGet {α : Type} (fr : PdFrame α) (g e : String) : Option (Option α) :=
  (lookupStr fr g).bind fun col => lookupStr col e

/-- `df[gate][evaluator] = v` (chained assignment through the column view);
missing labels are an error — the loops only touch labels the frame was built
with. -/
def frameSet {α : Type} (fr : PdFrame α) (g e : String) (v : α) :
    Except PyErr (PdFrame α) :=
  if (lookupStr fr g).bind (fun col => lookupStr col e) |>.isSome then
    .ok (fr.map fun gcol =>
      if gcol.1 = g then
        (gcol.1, gcol.2.map fun ecell => if ecell.1 = e then (ecell.1, some v) else ecell)
      else gcol)
  else .error .keyError

/-- The four accumulators of `load_raw_measurement_gradient_calculation`:
raw positive/negative tables and positive/negative attribute tables. -/
structure RawGradAcc where
  raw_pos : PdFrame (List (List ℚ))
  raw_neg : PdFrame (List (List ℚ))
  par_pos : PdFrame (List (String × ℚ))
  par_neg : PdFrame (List (String × ℚ))
  deriving DecidableEq, Repr

/-- The inner per-evaluator update of the accumulators: first repetition sets
the cell (raw and attributes), later repetitions concatenate the raw matrices
along axis 0 (`np.concatenate`; concatenating onto a still-NaN cell would be
a `ValueError`). -/
def rawEvalStep (gate : String) (i : ℕ)
    (raw_measurement_pos : PdSeries (List (List ℚ)))
    (raw_measurement_neg : PdSeries (List (List ℚ)))
    (attribute_info_pos : PdSeries (List (String × ℚ)))
    (attribute_info_neg : PdSeries (List (String × ℚ)))
    (acc : RawGradAcc) (evaluator : String) : Except PyErr RawGradAcc := do
  let matrix_pos ← (sGet raw_measurement_pos evaluator).elim (.error .keyError) .ok
  let matrix_neg ← (sGet raw_measurement_neg evaluator).elim (.error .keyError) .ok
  if i = 0 then do
    let rp ← frameSet acc.raw_pos gate evaluator matrix_pos
    let rn ← frameSet acc.raw_neg gate evaluator matrix_neg
    let ap ← (sGet attribute_info_pos evaluator).elim (.error .keyError)
              (frameSet acc.par_pos gate evaluator)
    let an ← (sGet attribute_info_neg evaluator).elim (.error .keyError)
              (frameSet acc.par_neg gate evaluator)
    .ok ⟨rp, rn, ap, an⟩
  else do
    let oldp ← (frameGet acc.raw_pos gate evaluator).elim (.error .keyError) .ok
    let cellp ← oldp.elim (Except.error PyErr.valueError) .ok
    let rp ← frameSet acc.raw_pos gate evaluator (cellp ++ matrix_pos)
    let oldn ← (frameGet acc.raw_neg gate evaluator).elim (.error .keyError) .ok
    let celln ← oldn.elim (Except.error PyErr.valueError) .ok
    let rn ← frameSet acc.raw_neg gate evaluator (celln ++ matrix_neg)
    .ok ⟨rp, rn, acc.par_pos, acc.par_neg⟩

/-- One `(repetition, gate)` iteration of the main loop.  The source reads the
`positive_detune_run_<gate>_<i>` group for BOTH the positive and the negative
accumulator (the second read, annotated in the source at Analyzer.py line 217,
also names `positive_detune_run_…`). -/
def rawGateStep (evaluator_names : List String) (gradient_group : H5GradGroup)
    (acc : RawGradAcc) (ig : ℕ × String) : Except PyErr RawGradAcc := do
  let (i, gate) := ig
  let pos_group ← (lookupStr gradient_group.detuneRuns
      ("positive_detune_run_" ++ gate ++ "_" ++ toString i)).elim (.error .keyError) .ok
  let (raw_measurement_pos, attribute_info_pos) ←
    load_raw_measurement_pd evaluator_names pos_group
  let (raw_measurement_neg, attribute_info_neg) ←
    load_raw_measurement_pd evaluator_names pos_group
  evaluator_names.foldlM
    (rawEvalStep gate i raw_measurement_pos raw_measurement_neg
      attribute_info_pos attribute_info_neg) acc

/-- The full return value of `load_raw_measurement_gradient_calculation`. -/
structure RawGradResult where
  raw_measurement_positive_detune : PdFrame (List (List ℚ))
  raw_measurement_negative_detune : PdFrame (List (List ℚ))
  parameter_positive_detune : PdFrame (List (String × ℚ))
  parameter_negative_detune : PdFrame (List (String × ℚ))
  n_repetitions : ℕ
  delta_u : ℚ
  deriving DecidableEq, Repr

/-- `Analyzer.load_raw_measurement_gradient_calculation`
(src/qtune/Analyzer.py lines 200–232): resolve the evaluator names and the
gradient setup group, read `delta_u` / `n_repetitions`, then accumulate the
raw-measurement and attribute tables over every repetition and tunable
gate. -/
def load_raw_measurement_gradient_calculation (f : H5File)
    (gradient_number tune_run_number : ℕ) (inputs : List String) :
    Except PyErr RawGradResult := do
  let (evaluator_names, inputs1) ← load_evaluator_names f tune_run_number inputs
  let (gradient_group, _) ← load_gradient_group f gradient_number tune_run_number inputs1
  let delta_u := gradient_group.delta_u
  let n_repetitions := gradient_group.n_repetitions
  let init : RawGradAcc :=
    ⟨emptyFrame f.tunable_gate_names evaluator_names,
     emptyFrame f.tunable_gate_names evaluator_names,
     emptyFrame f.tunable_gate_names evaluator_names,
     emptyFrame f.tunable_gate_names evaluator_names⟩
  let final ← ((List.range n_repetitions).flatMap
      (fun i => f.tunable_gate_names.map (fun g => (i, g)))).foldlM
    (rawGateStep evaluator_names gradient_group) init
  .ok ⟨final.raw_pos, final.raw_neg, final.par_pos, final.par_neg,
       n_repetitions, delta_u⟩

/-!
### Concrete instances used in the theorems
-/

/-- The solver state of the claim's worked example: two estimators with
gradient rows `[1,0]` / `[0,1]` and no pending measurement, current position
`{v1: 0, v2: 0}`, target desired `{p1: 1, p2: 1}`. -/
def newtonClaimExample : NewtonSolverState :=
  { target := ⟨[("p1", ⟨some 1, none, none⟩), ("p2", ⟨some 1, none, none⟩)]⟩
    gradient_estimators := [⟨[1, 0], none⟩, ⟨[0, 1], none⟩]
    current_position := some [("v1", some 0), ("v2", some 0)]
    current_values := [("p1", none), ("p2", none)] }

/-- A container file in which run 0 holds `charge_diagram_1` (gradient `[[1]]`,
covariance `[[2]]`, no noise) but run 1 does not — the fallback scenario of
`load_cd_gradient`. -/
def cdFallbackFile : H5File :=
  ⟨["g"], ["g"],
   [(0, ⟨none, [], [(1, ⟨some [[1]], some [[2]], none⟩)]⟩),
    (1, ⟨none, [], []⟩)]⟩

/-- A gradient setup with two repetitions for the single tunable gate `g` and
one evaluator; the negative-detune step groups hold data distinct from the
positive ones, so a reader that consulted them would return different
tables. -/
def exampleGradGroup : H5GradGroup :=
  ⟨7/2, 2,
   [("positive_detune_run_g_0", ⟨[("evaluator_A", ⟨[[1, 2]], [("parameter_x", 10)]⟩)]⟩),
    ("positive_detune_run_g_1", ⟨[("evaluator_A", ⟨[[3, 4]], [("parameter_x", 20)]⟩)]⟩),
    ("negative_detune_run_g_0", ⟨[("evaluator_A", ⟨[[9, 9]], [("parameter_x", 99)]⟩)]⟩),
    ("negative_detune_run_g_1", ⟨[("evaluator_A", ⟨[[8, 8]], [("parameter_x", 88)]⟩)]⟩)]⟩

/-- A container file holding `exampleGradGroup` as `gradient_setup_1` of run 0,
with a `tune_sequence/step_0` from which the evaluator name is discovered. -/
def exampleRawFile : H5File :=
  ⟨["g"], ["g"],
   [(0, ⟨some [(0, ⟨[("evaluator_A", ⟨[[1, 2]], [("parameter_x", 10)]⟩),
                     ("gate_voltages", ⟨[[0]], []⟩)]⟩)],
         [(1, exampleGradGroup)], []⟩)]⟩

/-!
### Theorems
-/

/-- Claim C1: `NewtonSolver.suggest_next_voltage` is claimed to return
`{v1: 1, v2: 1}` for a 2×2 identity Jacobian, position `{v1: 0, v2: 0}` and
desired `{p1: 1, p2: 1}`.  On the code it does not: `target.desired -
current_position` aligns the disjoint parameter and voltage indexes to a
4-entry all-NaN series, and `np.linalg.lstsq` of the 2×2 Jacobian against a
length-4 vector raises `LinAlgError` (the slip is using `_current_position`
where the maintained-but-unused `_current_values` was intended). -/
theorem newton_suggest_spec_example_raises :
    NewtonSolver.suggest_next_voltage newtonClaimExample = .error .linAlgError := by
  decide

/-- Claim C5: `load_cd_gradient(1, tune_run=1)` on a file whose run 1 lacks
`charge_diagram_1` is claimed to return the triple found in run 0.  On the
code it raises `KeyError` instead: the recursive fallback call's result is
discarded (no `return`), after which the method unconditionally indexes the
missing group on run 1.  The same call aimed at run 0 directly does return
the triple, showing the fallback data was available. -/
theorem load_cd_gradient_fallback_raises :
    load_cd_gradient cdFallbackFile 1 1 = .error .keyError ∧
    load_cd_gradient cdFallbackFile 1 0 = .ok ⟨[[1]], [[2]], none⟩ := by decide

/-- Claim C8 (counterexample): the spec's example values have the sign
flipped — `nth_diff` computes `data[i] - data[i+n]`, which is negative on the
increasing example data. -/
theorem nth_diff_spec_values_counterexample :
    ¬(nth_diff [10, 20, 35, 50] 1 = .ok [10, 15, 15] ∧
      nth_diff [10, 20, 35, 50] 2 = .ok [25, 30]) := by decide

/-- Claim C8 (amended): `nth_diff([10,20,35,50], 1) = [-10,-15,-15]` and
`nth_diff([10,20,35,50], 2) = [-25,-30]` (each entry `data[i] - data[i+n]`),
and in general the output has length `len(data) - n`. -/
theorem nth_diff_corrected_values :
    nth_diff [10, 20, 35, 50] 1 = .ok [-10, -15, -15] ∧
    nth_diff [10, 20, 35, 50] 2 = .ok [-25, -30] ∧
    ∀ (data : List ℚ) (n : ℕ), n ≤ data.length →
      (nth_diff data n).map List.length = .ok (data.length - n) := by
  refine ⟨by decide, by decide, fun data n h => ?_⟩
  unfold nth_diff
  rw [if_neg (by omega)]
  simp [Except.map]

/-- Witness for the amended claim C8 at a concrete input. -/
theorem nth_diff_corrected_values_witness :
    1 ≤ ([10, 20, 35, 50] : List ℚ).length ∧
    (nth_diff [10, 20, 35, 50] 1).map List.length = .ok 3 :=
  ⟨by decide, nth_diff_corrected_values.2.2 [10, 20, 35, 50] 1 (by decide)⟩

/-- Claim C9 (counterexample): `find_lead_transition` on the 1-D trace
`[1,2,3,4]` (center 0, scan_range 1, npoints 4, width 1/4, so lag `n = 1`)
does not leave the caller's array unchanged: the in-place differencing loop
rewrites it to `[-1,-1,3,4]`. -/
theorem find_lead_transition_purity_counterexample :
    (find_lead_transition (.d1 [1, 2, 3, 4]) 0 1 4 (1/4)).2 ≠ .d1 [1, 2, 3, 4] := by decide

/-- Claim C7 (counterexample): the claim computes the lag as
`round(width/scan_range*npoints)` but the code truncates
(`int(width/scan_range*npoints)`).  With `width/scan_range*npoints = 2.7`
(data `[5,0,…,0]`, center 0, scan_range 1, npoints 10, width 27/100) the
claim's pipeline (lag 3, lag compensation `round(1.5) = 2`) predicts
`x[2] = -5/9` while the code (lag 2, compensation 1) returns `x[1] = -7/9`. -/
theorem find_lead_transition_round_lag_counterexample :
    find_lead_transition_claim [5, 0, 0, 0, 0, 0, 0, 0, 0, 0] 0 1 10 (27/100)
      = .ok (some (-5/9)) ∧
    (find_lead_transition (.d1 [5, 0, 0, 0, 0, 0, 0, 0, 0, 0]) 0 1 10 (27/100)).1
      = .ok (some (-7/9)) ∧
    ((-7 : ℚ)/9) ≠ -5/9 := by
  refine ⟨by decide, by decide, by decide⟩

/-- A list equals the table of its `getD` values. -/
theorem self_eq_map_range_getD (l : List ℚ) :
    (List.range l.length).map (fun j => l.getD j 0) = l := by
  apply List.ext_getElem (by simp)
  intro i h1 h2
  simp [List.getD_eq_getElem?_getD, List.getElem?_eq_getElem h2]

/-- `getD` into the table of a function over `List.range`. -/
theorem getD_map_range (L : ℕ) (f : ℕ → ℚ) (i : ℕ) :
    ((List.range L).map f).getD i 0 = if i < L then f i else 0 := by
  by_cases h : i < L
  · rw [List.getD_eq_getElem _ 0 (by simpa using h), if_pos h]
    simp
  · rw [if_neg h, List.getD_eq_getElem?_getD, List.getElem?_eq_none (by simpa using not_lt.mp h)]
    rfl

/-- The in-place differencing loop, characterized pointwise: after the first
`t` iterations, entry `j < t` holds `y[j] - y[j+n]` and the rest is intact
(each read happens at an index not yet written). -/
theorem lead_diff_loop_go (y : List ℚ) (n : ℕ) :
    ∀ t, t ≤ y.length - n - 1 →
      (List.range t).foldl (fun acc i => acc.set i (acc.getD i 0 - acc.getD (i + n) 0)) y
      = (List.range y.length).map fun j =>
          if j < t then y.getD j 0 - y.getD (j + n) 0 else y.getD j 0 := by
  intro t
  induction t with
  | zero =>
    intro _
    simp only [List.range_zero, List.foldl_nil]
    rw [List.map_congr_left (g := fun j => y.getD j 0) (fun a _ => by simp),
      self_eq_map_range_getD]
  | succ t ih =>
    intro ht
    rw [List.range_succ, List.foldl_append, ih (by omega)]
    simp only [List.foldl_cons, List.foldl_nil]
    have h1 : ((List.range y.length).map fun j =>
        if j < t then y.getD j 0 - y.getD (j + n) 0 else y.getD j 0).getD t 0
        = y.getD t 0 := by
      rw [getD_map_range, if_pos (by omega), if_neg (by omega)]
    have h2 : ((List.range y.length).map fun j =>
        if j < t then y.getD j 0 - y.getD (j + n) 0 else y.getD j 0).getD (t + n) 0
        = y.getD (t + n) 0 := by
      rw [getD_map_range, if_pos (by omega), if_neg (by omega)]
    rw [h1, h2]
    apply List.ext_getElem (by simp)
    intro j hj1 hj2
    rw [List.getElem_set]
    simp only [List.getElem_map, List.getElem_range]
    by_cases hjt : t = j
    · subst hjt
      rw [if_pos rfl, if_pos (by omega)]
    · rw [if_neg hjt]
      by_cases hlt : j < t
      · rw [if_pos hlt, if_pos (by omega)]
      · rw [if_neg hlt, if_neg (by omega)]

/-- `lead_diff_loop` in closed form. -/
theorem lead_diff_loop_eq (y : List ℚ) (n : ℕ) :
    lead_diff_loop y n = (List.range y.length).map fun j =>
      if j < y.length - n - 1 then y.getD j 0 - y.getD (j + n) 0 else y.getD j 0 :=
  lead_diff_loop_go y n (y.length - n - 1) le_rfl

/-- The array component of `flt_body` is exactly the loop's output, on every
control path. -/
theorem flt_body_snd (y x : List ℚ) (n : ℕ) : (flt_body y x n).2 = lead_diff_loop y n := by
  dsimp only [flt_body]
  split
  · rfl
  · split <;> rfl

/-- `np.linspace` yields `npoints` samples. -/
theorem np_linspace_length (a b : ℚ) (n : ℕ) : (np_linspace a b n).length = n := by
  unfold np_linspace
  by_cases h0 : n = 0
  · simp [h0]
  · by_cases h1 : n = 1
    · simp [h0, h1]
    · rw [if_neg h0, if_neg h1, List.length_map, List.length_range]

/-- In-range `get?` as a `getD`. -/
theorem get?_eq_some_getD (l : List ℚ) (i : ℕ) (h : i < l.length) :
    l.get? i = some (l.getD i 0) := by
  rw [List.get?_eq_getElem?, List.getElem?_eq_getElem h, List.getD_eq_getElem l 0 h]

/-- Claim C7 (amended): for a 1-D input, the x-axis is `npoints` evenly
spaced values over `[center-scan_range, center+scan_range]`, the lag is
`n = int(width/scan_range*npoints)` — TRUNCATED toward zero, not rounded as
the claim stated — the differencer sets `y[i] -= y[i+n]` for
`i = 0 … len(y)-n-2`, the last `n+1` samples are truncated, and the returned
value is the x-coordinate at `argmax(|y_red|) + round(n/2)`.  A 2-D input is
first averaged over its first axis, and an input of any other dimensionality
yields not-a-number. -/
theorem find_lead_transition_trunc_lag_spec
    (xs : List ℚ) (center scan_range width : ℚ) (npoints : ℕ)
    (hsr : scan_range ≠ 0) (n am : ℕ)
    (hn : n = (pyIntTrunc (width / scan_range * npoints)).toNat)
    (ham : np_argmax ((List.range (xs.length - n - 1)).map fun i =>
             |xs.getD i 0 - xs.getD (i + n) 0|) = some am)
    (hidx : am + (pyRound ((n : ℚ) / 2)).toNat < npoints) :
    (find_lead_transition (.d1 xs) center scan_range npoints width).1 =
      .ok (some ((np_linspace (center - scan_range) (center + scan_range) npoints).getD
        (am + (pyRound ((n : ℚ) / 2)).toNat) 0)) ∧
    (∀ xss : List (List ℚ),
      (find_lead_transition (.d2 xss) center scan_range npoints width).1 =
      (find_lead_transition (.d1 (np_colmeans xss)) center scan_range npoints width).1) ∧
    (∀ k : ℕ, (find_lead_transition (.dOther k) center scan_range npoints width).1 = .ok none) := by
  refine ⟨?_, fun xss => by by_cases h : scan_range = 0 <;> simp [find_lead_transition, h],
    fun k => rfl⟩
  have hlen : (lead_diff_loop xs n).length = xs.length := by
    rw [lead_diff_loop_eq]; simp
  have hred : ((lead_diff_loop xs n).take ((lead_diff_loop xs n).length - n - 1)).map
        (fun q => |q|)
      = (List.range (xs.length - n - 1)).map fun i => |xs.getD i 0 - xs.getD (i + n) 0| := by
    rw [lead_diff_loop_eq]
    simp only [List.length_map, List.length_range]
    rw [← List.map_take, List.map_map, List.take_range, Nat.min_eq_left (by omega)]
    apply List.map_congr_left
    intro i hi
    have hi2 : i < xs.length - n - 1 := List.mem_range.mp hi
    simp [Function.comp, hi2]
  have hbody : flt_body xs (np_linspace (center - scan_range) (center + scan_range) npoints) n
      = (.ok ((np_linspace (center - scan_range) (center + scan_range) npoints).getD
          (am + (pyRound ((n : ℚ) / 2)).toNat) 0), lead_diff_loop xs n) := by
    unfold flt_body
    dsimp only
    rw [hred, ham]
    dsimp only
    rw [get?_eq_some_getD _ _ (by rw [np_linspace_length]; exact hidx)]
  simp only [find_lead_transition, if_neg hsr, ← hn, hbody]
  rfl

/-- Witness for the amended claim C7: the counterexample input, now predicted
with the truncated lag (`n = 2`, compensation 1, `x[1] = -7/9`). -/
theorem find_lead_transition_trunc_lag_spec_witness :
    (find_lead_transition (.d1 [5, 0, 0, 0, 0, 0, 0, 0, 0, 0]) 0 1 10 (27/100)).1
      = .ok (some (-7/9)) := by
  have h := (find_lead_transition_trunc_lag_spec [5, 0, 0, 0, 0, 0, 0, 0, 0, 0] 0 1 (27/100) 10
    (by norm_num) 2 0 (by decide) (by decide) (by decide)).1
  rw [h]
  decide

/-- Claim C9 (amended): the numeric routines' results depend only on their
arguments, and every input except a 1-D array given to
`find_lead_transition` is left unchanged; `find_lead_transition` overwrites
entries `i < len - n - 1` of a 1-D input with `data[i] - data[i+n]` in place
(2-D inputs are averaged into a fresh array and not modified). -/
theorem find_lead_transition_mutation_spec :
    (∀ (xss : List (List ℚ)) (c r : ℚ) (np : ℕ) (w : ℚ),
        (find_lead_transition (.d2 xss) c r np w).2 = .d2 xss) ∧
    (∀ (k : ℕ) (c r : ℚ) (np : ℕ) (w : ℚ),
        (find_lead_transition (.dOther k) c r np w).2 = .dOther k) ∧
    (∀ (xs : List ℚ) (c r : ℚ) (np : ℕ) (w : ℚ), r ≠ 0 →
        (find_lead_transition (.d1 xs) c r np w).2 =
          .d1 ((List.range xs.length).map fun j =>
            if j < xs.length - (pyIntTrunc (w / r * np)).toNat - 1
            then xs.getD j 0 - xs.getD (j + (pyIntTrunc (w / r * np)).toNat) 0
            else xs.getD j 0)) := by
  refine ⟨fun xss c r np w => by by_cases h : r = 0 <;> simp [find_lead_transition, h],
    fun k c r np w => rfl, fun xs c r np w hr => ?_⟩
  simp only [find_lead_transition, if_neg hr]
  rcases hfb : flt_body xs (np_linspace (c - r) (c + r) np)
      ((pyIntTrunc (w / r * np)).toNat) with ⟨r1, y2⟩
  have h2 := flt_body_snd xs (np_linspace (c - r) (c + r) np)
      ((pyIntTrunc (w / r * np)).toNat)
  rw [hfb, lead_diff_loop_eq] at h2
  simpa using congrArg NpData.d1 h2

/-- Witness for the amended claim C9 at the counterexample input: the array
`[1,2,3,4]` is left as `[-1,-1,3,4]`. -/
theorem find_lead_transition_mutation_spec_witness :
    (find_lead_transition (.d1 [1, 2, 3, 4]) 0 1 4 (1/4)).2 = .d1 [-1, -1, 3, 4] := by
  have h := find_lead_transition_mutation_spec.2.2 [1, 2, 3, 4] 0 1 4 (1/4) (by norm_num)
  rw [h]
  decide

/-- When every estimator declines to request a measurement, the sweep returns
no suggestion. -/
theorem first_measurement_suggestion_eq_none :
    ∀ (l : List GradientEstimator), (∀ e ∈ l, e.require_measurement = none) →
      first_measurement_suggestion l = none
  | [], _ => rfl
  | e :: es, h => by
    have he := h e (List.mem_cons_self ..)
    simp [first_measurement_suggestion, he,
      first_measurement_suggestion_eq_none es (fun x hx => h x (List.mem_cons_of_mem _ hx))]

/-- Claim C3: `NewtonSolver` fails fast — construction with
`len(target) ≠ len(estimators)` is a fatal assertion, and
`suggest_next_voltage` with no initialized current position (and no estimator
requesting a measurement) fails with "Position not initialized". -/
theorem newton_fail_fast_spec :
    (∀ (t : Target) (es : List GradientEstimator) (cp cv : Option (PdSeries Val)),
        t.rows.length ≠ es.length →
        NewtonSolver.init t es cp cv = .error .assertionError) ∧
    (∀ s : NewtonSolverState, s.current_position = none →
        (∀ e ∈ s.gradient_estimators, e.require_measurement = none) →
        NewtonSolver.suggest_next_voltage s =
          .error (.runtimeError "NewtonSolver: Position not initialized.")) := by
  constructor
  · intro t es cp cv h
    unfold NewtonSolver.init
    rw [if_pos h]
  · intro s hpos hreq
    unfold NewtonSolver.suggest_next_voltage
    rw [first_measurement_suggestion_eq_none _ hreq, hpos]

/-- Witness for claim C3: a 2-parameter target with a single estimator fails
the construction assertion, and a solver with no position fails
`suggest_next_voltage`. -/
theorem newton_fail_fast_spec_witness :
    NewtonSolver.init ⟨[("p1", ⟨some 1, none, none⟩), ("p2", ⟨some 1, none, none⟩)]⟩
        [⟨[1, 0], none⟩] none none = .error .assertionError ∧
    NewtonSolver.suggest_next_voltage
        { target := ⟨[("p1", ⟨some 1, none, none⟩)]⟩
          gradient_estimators := [⟨[1, 0], none⟩]
          current_position := none
          current_values := [("p1", none)] } =
      .error (.runtimeError "NewtonSolver: Position not initialized.") :=
  ⟨newton_fail_fast_spec.1 _ _ _ _ (by decide),
   newton_fail_fast_spec.2 _ rfl (by decide)⟩

/-- Claim C10: constructing `NewtonSolver` with a non-None `current_values`
series raises (the series truth-value test fails), so a construction
succeeds — storing all-NaN current values over the target's parameter
index — only when `current_values` is omitted or `None`. -/
theorem newton_init_current_values_spec :
    (∀ (t : Target) (es : List GradientEstimator) (cp : Option (PdSeries Val))
        (cv : PdSeries Val), 2 ≤ t.rows.length →
        ∀ s, NewtonSolver.init t es cp (some cv) ≠ .ok s) ∧
    (∀ (t : Target) (es : List GradientEstimator) (cp cv : Option (PdSeries Val))
        (s : NewtonSolverState), NewtonSolver.init t es cp cv = .ok s →
        cv = none ∧ s.current_values = t.rows.map fun kv => (kv.1, (none : Val))) := by
  constructor
  · intro t es cp cv _ s h
    unfold NewtonSolver.init at h
    by_cases hl : t.rows.length ≠ es.length
    · rw [if_pos hl] at h
      exact Except.noConfusion h
    · rw [if_neg hl] at h
      exact Except.noConfusion h
  · intro t es cp cv s h
    unfold NewtonSolver.init at h
    by_cases hl : t.rows.length ≠ es.length
    · rw [if_pos hl] at h
      exact Except.noConfusion h
    · rw [if_neg hl] at h
      cases cv with
      | some v => exact Except.noConfusion h
      | none =>
        refine ⟨rfl, ?_⟩
        cases h
        rfl

/-- Witness for claim C10: a 2-parameter target rejects a supplied
`current_values` series, and the same construction without one succeeds with
NaN stored values. -/
theorem newton_init_current_values_spec_witness :
    (NewtonSolver.init ⟨[("p1", ⟨some 1, none, none⟩), ("p2", ⟨some 1, none, none⟩)]⟩
        [⟨[1, 0], none⟩, ⟨[0, 1], none⟩] none
        (some [("p1", some 0), ("p2", some 0)]) ≠
      .ok { target := ⟨[("p1", ⟨some 1, none, none⟩), ("p2", ⟨some 1, none, none⟩)]⟩
            gradient_estimators := [⟨[1, 0], none⟩, ⟨[0, 1], none⟩]
            current_position := none
            current_values := [("p1", some 0), ("p2", some 0)] }) ∧
    ((none : Option (PdSeries Val)) = none ∧
      ([("p1", (none : Val)), ("p2", (none : Val))] : PdSeries Val) =
        ([("p1", ⟨some 1, none, none⟩), ("p2", ⟨some 1, none, none⟩)] :
          PdSeries TargetRow).map fun kv => (kv.1, (none : Val))) :=
  ⟨newton_init_current_values_spec.1 _ [⟨[1, 0], none⟩, ⟨[0, 1], none⟩] none
      [("p1", some 0), ("p2", some 0)] (by decide) _,
   newton_init_current_values_spec.2
      ⟨[("p1", ⟨some 1, none, none⟩), ("p2", ⟨some 1, none, none⟩)]⟩
      [⟨[1, 0], none⟩, ⟨[0, 1], none⟩] none none
      { target := ⟨[("p1", ⟨some 1, none, none⟩), ("p2", ⟨some 1, none, none⟩)]⟩
        gradient_estimators := [⟨[1, 0], none⟩, ⟨[0, 1], none⟩]
        current_position := none
        current_values := [("p1", none), ("p2", none)] } (by decide)⟩

/-- `sGet` through a key-preserving map. -/
theorem sGet_map_keyed {α : Type} (s : PdSeries α) (g : String → α → α) (k : String) :
    sGet (s.map fun kv => (kv.1, g kv.1 kv.2)) k = (sGet s k).map (g k) := by
  induction s with
  | nil => rfl
  | cons kv rest ih =>
    by_cases h : kv.1 = k
    · subst h
      simp [sGet, List.find?_cons]
    · have e1 : sGet ((kv.1, g kv.1 kv.2) :: rest.map fun kv => (kv.1, g kv.1 kv.2)) k
          = sGet (rest.map fun kv => (kv.1, g kv.1 kv.2)) k := by
        simp [sGet, List.find?_cons, h]
      have e2 : sGet (kv :: rest) k = sGet rest k := by
        simp [sGet, List.find?_cons, h]
      simp only [List.map_cons]
      rw [e1, ih, e2]

/-- Zipping a series' index with its values gives the series back. -/
theorem zip_index_snd {α : Type} (s : PdSeries α) :
    (sIndex s).zip (s.map Prod.snd) = s := by
  induction s with
  | nil => rfl
  | cons kv rest ih => simpa [sIndex] using ih

/-- With a duplicate-free index, the last and the first occurrence of a label
agree. -/
theorem lookupLast_eq_sGet {α : Type} :
    ∀ (s : PdSeries α), (sIndex s).Nodup → ∀ k, lookupLast s k = sGet s k
  | [], _, _ => rfl
  | kv :: rest, h, k => by
    have hh : kv.1 ∉ sIndex rest ∧ (sIndex rest).Nodup := by simpa [sIndex] using h
    have hnd := hh.2
    have hnm := hh.1
    unfold lookupLast
    rw [List.reverse_cons, List.find?_append]
    by_cases hk : kv.1 = k
    · subst hk
      have hnone : rest.reverse.find? (fun p => p.1 = kv.1) = none := by
        rw [List.find?_eq_none]
        intro x hx
        simp only [decide_eq_true_eq]
        intro hx1
        exact hnm (hx1 ▸ List.mem_map_of_mem Prod.fst (List.mem_reverse.mp hx))
      rw [hnone]
      simp [sGet, List.find?_cons]
    · have h1 : ([kv] : PdSeries α).find? (fun p => p.1 = k) = none := by simp [hk]
      rw [h1, Option.or_none]
      have ihr := lookupLast_eq_sGet rest hnd k
      unfold lookupLast at ihr
      rw [ihr]
      simp [sGet, List.find?_cons, hk]

/-- The effect of the pandas positional label assignment `s[ls] = vs` on a
single label: listed labels take the (last) assigned value, others keep
theirs. -/
theorem sGet_sSetLabels {α : Type} {s t : PdSeries α} {ls : List String} {vs : List α}
    (h : sSetLabels s ls vs = .ok t) (k : String) :
    sGet t k = match lookupLast (ls.zip vs) k with
               | some v => (sGet s k).map fun _ => v
               | none => sGet s k := by
  unfold sSetLabels at h
  split at h
  · have ht : t = s.map fun kv =>
        match lookupLast (ls.zip vs) kv.1 with
        | some v => (kv.1, v)
        | none => kv := by cases h; rfl
    subst ht
    have hmap : (s.map fun kv =>
        match lookupLast (ls.zip vs) kv.1 with
        | some v => (kv.1, v)
        | none => kv)
        = s.map fun kv => (kv.1,
            match lookupLast (ls.zip vs) kv.1 with
            | some v => v
            | none => kv.2) := by
      apply List.map_congr_left
      intro kv _
      cases lookupLast (ls.zip vs) kv.1 <;> rfl
    rw [hmap]
    refine (sGet_map_keyed s (fun key old =>
        match lookupLast (ls.zip vs) key with
        | some v => v
        | none => old) k).trans ?_
    cases hx : lookupLast (ls.zip vs) k <;> cases sGet s k <;> simp [hx]
  · exact Except.noConfusion h

/-- Claim C2: `ForwardingSolver.suggest_next_voltage` returns the staged next
voltage verbatim; `update_after_step` copies the applied voltages into the
current position for exactly the driven channels; and on the concrete
scenario (`parameter_to_voltage = {param_A: gate_X}`, position
`{gate_X: 0, gate_Y: 0}`, update with voltages `{gate_Y: 1}` and parameters
`{param_A: 5}`) the staged next voltage becomes `{gate_X: 5, gate_Y: 1}`
while the position only picks up the `gate_Y` update. -/
theorem forwarding_solver_update_spec :
    (∀ s : ForwardingSolverState, ForwardingSolver.suggest_next_voltage s = s.next_voltage) ∧
    (∀ (s : ForwardingSolverState) (voltages parameters : PdSeries Val)
        (s' : ForwardingSolverState),
        ForwardingSolver.update_after_step s voltages parameters = .ok s' →
        (sIndex voltages).Nodup →
        ∀ k, sGet s'.current_position k =
          match sGet voltages k with
          | some v => (sGet s.current_position k).map fun _ => v
          | none => sGet s.current_position k) ∧
    (ForwardingSolver.update_after_step
        (ForwardingSolver.init ⟨[]⟩ [("param_A", "gate_X")]
          [("gate_X", some 0), ("gate_Y", some 0)])
        [("gate_Y", some 1)] [("param_A", some 5)]
      = .ok { target := ⟨[]⟩
              parameter_to_voltage := [("param_A", "gate_X")]
              current_position := [("gate_X", some 0), ("gate_Y", some 1)]
              next_voltage := [("gate_X", some 5), ("gate_Y", some 1)] }) := by
  refine ⟨fun s => rfl, ?_, ?_⟩
  case refine_2 => decide
  intro s voltages parameters s' h hnd k
  unfold ForwardingSolver.update_after_step at h
  cases hp : sSetLabels s.current_position (sIndex voltages) (voltages.map Prod.snd) with
  | error e => simp [Bind.bind, Except.bind, hp] at h
  | ok pos =>
    cases h1 : sSetLabels s.next_voltage (sIndex voltages) (voltages.map Prod.snd) with
    | error e => simp [Bind.bind, Except.bind, hp, h1] at h
    | ok nv1 =>
      cases h2 : sGetLabels s.parameter_to_voltage (sIndex parameters) with
      | error e => simp [Bind.bind, Except.bind, hp, h1, h2] at h
      | ok names =>
        cases h3 : sSetLabels nv1 (names.map Prod.snd) (parameters.map Prod.snd) with
        | error e => simp [Bind.bind, Except.bind, hp, h1, h2, h3] at h
        | ok nv2 =>
          simp only [Bind.bind, Except.bind, hp, h1, h2, h3, Except.ok.injEq] at h
          have hpos : s'.current_position = pos := by rw [← h]
          rw [hpos]
          have hchar := sGet_sSetLabels hp k
          rw [zip_index_snd, lookupLast_eq_sGet voltages hnd k] at hchar
          cases hv : sGet voltages k <;> simp only [hv] at hchar ⊢ <;> exact hchar

/-- Witness for claim C2: in the concrete scenario the driven channel
`gate_Y` reads back `1` from the recorded current position. -/
theorem forwarding_solver_update_spec_witness :
    sGet ([("gate_X", some 0), ("gate_Y", some 1)] : PdSeries Val) "gate_Y" = some (some 1) := by
  have h := forwarding_solver_update_spec.2.1
    (ForwardingSolver.init ⟨[]⟩ [("param_A", "gate_X")]
      [("gate_X", some 0), ("gate_Y", some 0)])
    [("gate_Y", some 1)] [("param_A", some 5)]
    { target := ⟨[]⟩
      parameter_to_voltage := [("param_A", "gate_X")]
      current_position := [("gate_X", some 0), ("gate_Y", some 1)]
      next_voltage := [("gate_X", some 5), ("gate_Y", some 1)] }
    (by decide) (by decide) "gate_Y"
  simpa using h

/-- Setting row `t` of a partially filled row table extends the filled
region by one. -/
theorem set_map_range_step (g t : ℕ) (_ht : t < g) (f : ℕ → List ℚ) (z : List ℚ) :
    (((List.range g).map fun r => if r < t then f r else z).set t (f t))
    = (List.range g).map fun r => if r < t + 1 then f r else z := by
  apply List.ext_getElem (by simp)
  intro j hj1 hj2
  rw [List.getElem_set]
  simp only [List.getElem_map, List.getElem_range]
  by_cases hjt : t = j
  · subst hjt
    rw [if_pos rfl, if_pos (by omega)]
  · rw [if_neg hjt]
    by_cases hlt : j < t
    · rw [if_pos hlt, if_pos (by omega)]
    · rw [if_neg hlt, if_neg (by omega)]

/-- The `n_points == n_gates + 1` loop of `gradient_min_evaluations`,
characterized: after the iterations `i = 1 … t`, row `i - 1` of the voltage
(resp. parameter) difference matrix holds `point[i] - point[0]`
(resp. the parameter difference) and the remaining rows are still zero. -/
theorem gme_fold_ref (parameters voltage_points : List (List ℚ)) (g : ℕ)
    (hv : ∀ v ∈ voltage_points, v.length = g)
    (hp : ∀ p ∈ parameters, p.length = g)
    (hvl : voltage_points.length = g + 1)
    (hpl : parameters.length = g + 1) :
    ∀ t, t ≤ g →
      (List.range' 1 t).foldlM (gmeStepRef voltage_points parameters)
        (zerosMat g g, zerosMat g g)
      = .ok ((List.range g).map fun r =>
               if r < t then List.zipWith (· - ·) (voltage_points.getD (r + 1) [])
                 (voltage_points.getD 0 [])
               else (List.range g).map fun _ => (0 : ℚ),
             (List.range g).map fun r =>
               if r < t then List.zipWith (· - ·) (parameters.getD (r + 1) [])
                 (parameters.getD 0 [])
               else (List.range g).map fun _ => (0 : ℚ)) := by
  have hgetv : ∀ i, i < voltage_points.length → (voltage_points.getD i []).length = g := by
    intro i hi
    rw [List.getD_eq_getElem _ _ hi]
    exact hv _ (List.getElem_mem hi)
  have hgetp : ∀ i, i < parameters.length → (parameters.getD i []).length = g := by
    intro i hi
    rw [List.getD_eq_getElem _ _ hi]
    exact hp _ (List.getElem_mem hi)
  intro t
  induction t with
  | zero =>
    intro _
    simp only [List.range'_zero, List.foldlM_nil]
    have hz : ∀ f : ℕ → List ℚ, (List.range g).map (fun r =>
        if r < 0 then f r else (List.range g).map fun _ => (0 : ℚ)) = zerosMat g g := by
      intro f
      apply List.map_congr_left
      intro a _
      rw [if_neg (Nat.not_lt_zero a)]
    rw [hz, hz]
    rfl
  | succ t ih =>
    intro ht
    rw [List.range'_concat, List.foldlM_append, ih (by omega)]
    simp only [List.foldlM_cons, List.foldlM_nil, Bind.bind, Except.bind]
    have e1 : 1 + 1 * t = t + 1 := by omega
    rw [e1]
    have hdv : vecSub (voltage_points.getD (t + 1) []) (voltage_points.getD 0 [])
        = .ok (List.zipWith (· - ·) (voltage_points.getD (t + 1) [])
            (voltage_points.getD 0 [])) := by
      unfold vecSub
      rw [if_pos (by rw [hgetv (t + 1) (by omega), hgetv 0 (by omega)])]
    have hdp : vecSub (parameters.getD (t + 1) []) (parameters.getD 0 [])
        = .ok (List.zipWith (· - ·) (parameters.getD (t + 1) [])
            (parameters.getD 0 [])) := by
      unfold vecSub
      rw [if_pos (by rw [hgetp (t + 1) (by omega), hgetp 0 (by omega)])]
    have hrow : ∀ (f : ℕ → List ℚ), ((List.range g).map fun r =>
          if r < t then f r else (List.range g).map fun _ => (0 : ℚ)).get? t
        = some ((List.range g).map fun _ => (0 : ℚ)) := by
      intro f
      rw [List.get?_eq_getElem?, List.getElem?_eq_getElem (by simpa using by omega)]
      simp only [List.getElem_map, List.getElem_range]
      rw [if_neg (by omega)]
    have hsetv : setRow ((List.range g).map fun r =>
          if r < t then List.zipWith (· - ·) (voltage_points.getD (r + 1) [])
            (voltage_points.getD 0 [])
          else (List.range g).map fun _ => (0 : ℚ)) ((t + 1) - 1)
          (List.zipWith (· - ·) (voltage_points.getD (t + 1) []) (voltage_points.getD 0 []))
        = .ok ((List.range g).map fun r =>
            if r < t + 1 then List.zipWith (· - ·) (voltage_points.getD (r + 1) [])
              (voltage_points.getD 0 [])
            else (List.range g).map fun _ => (0 : ℚ)) := by
      unfold setRow
      simp only [Nat.add_sub_cancel]
      rw [hrow]
      dsimp only
      rw [if_pos (by simp only [List.length_map, List.length_range, List.length_zipWith,
        hgetv (t + 1) (by omega), hgetv 0 (by omega), Nat.min_self])]
      rw [set_map_range_step g t (by omega)]
    have hsetp : setRow ((List.range g).map fun r =>
          if r < t then List.zipWith (· - ·) (parameters.getD (r + 1) [])
            (parameters.getD 0 [])
          else (List.range g).map fun _ => (0 : ℚ)) ((t + 1) - 1)
          (List.zipWith (· - ·) (parameters.getD (t + 1) []) (parameters.getD 0 []))
        = .ok ((List.range g).map fun r =>
            if r < t + 1 then List.zipWith (· - ·) (parameters.getD (r + 1) [])
              (parameters.getD 0 [])
            else (List.range g).map fun _ => (0 : ℚ)) := by
      unfold setRow
      simp only [Nat.add_sub_cancel]
      rw [hrow]
      dsimp only
      rw [if_pos (by simp only [List.length_map, List.length_range, List.length_zipWith,
        hgetp (t + 1) (by omega), hgetp 0 (by omega), Nat.min_self])]
      rw [set_map_range_step g t (by omega)]
    unfold gmeStepRef
    simp only [Bind.bind, Except.bind, hdv, hdp, hsetv, hsetp]
    rfl

/-- The `n_gates + 1`-point branch builds fully filled difference matrices. -/
theorem gme_diff_matrices_eq (parameters voltage_points : List (List ℚ)) (g : ℕ)
    (hv : ∀ v ∈ voltage_points, v.length = g)
    (hp : ∀ p ∈ parameters, p.length = g)
    (hvl : voltage_points.length = g + 1)
    (hpl : parameters.length = g + 1) :
    gmeDiffMatrices parameters voltage_points (g + 1) g g =
      .ok ((List.range g).map fun r =>
             List.zipWith (· - ·) (voltage_points.getD (r + 1) []) (voltage_points.getD 0 []),
           (List.range g).map fun r =>
             List.zipWith (· - ·) (parameters.getD (r + 1) []) (parameters.getD 0 [])) := by
  unfold gmeDiffMatrices
  rw [if_pos rfl]
  simp only [Nat.add_sub_cancel]
  rw [gme_fold_ref parameters voltage_points g hv hp hvl hpl g le_rfl]
  congr 1
  congr 1 <;>
    · apply List.map_congr_left
      intro r hr
      rw [if_pos (List.mem_range.mp hr)]

/-- Claim C4: for `n_gates + 1` voltage points (square case), row `i - 1` of
the voltage-difference matrix is `point[i] - point[0]` (and the parameter
differences analogously), the result is
`parameter_diff · inverse(voltage_diff)`, and on the worked example
(`voltage_points [[0,0],[1,0],[0,1]]`, `parameters [[0,0],[2,0],[0,3]]`) the
gradient is `[[2,0],[0,3]]`. -/
theorem gradient_min_evaluations_spec :
    (∀ (parameters voltage_points : List (List ℚ)) (g : ℕ),
      (∀ v ∈ voltage_points, v.length = g) → (∀ p ∈ parameters, p.length = g) →
      voltage_points.length = g + 1 → parameters.length = g + 1 →
      (gmeDiffMatrices parameters voltage_points (g + 1) g g =
        .ok ((List.range g).map fun r =>
               List.zipWith (· - ·) (voltage_points.getD (r + 1) []) (voltage_points.getD 0 []),
             (List.range g).map fun r =>
               List.zipWith (· - ·) (parameters.getD (r + 1) []) (parameters.getD 0 []))) ∧
      (∀ i, 1 ≤ i → i ≤ g →
        ((List.range g).map fun r =>
            List.zipWith (· - ·) (voltage_points.getD (r + 1) []) (voltage_points.getD 0 [])).get?
          (i - 1)
          = some (List.zipWith (· - ·) (voltage_points.getD i []) (voltage_points.getD 0 []))) ∧
      (matDet ((List.range g).map fun r =>
          List.zipWith (· - ·) (voltage_points.getD (r + 1) []) (voltage_points.getD 0 [])) ≠ 0 →
        gradient_min_evaluations parameters voltage_points =
          .ok (matMul
            ((List.range g).map fun r =>
              List.zipWith (· - ·) (parameters.getD (r + 1) []) (parameters.getD 0 []))
            (matInv ((List.range g).map fun r =>
              List.zipWith (· - ·) (voltage_points.getD (r + 1) []) (voltage_points.getD 0 [])))))) ∧
    gradient_min_evaluations [[0, 0], [2, 0], [0, 3]] [[0, 0], [1, 0], [0, 1]]
      = .ok [[2, 0], [0, 3]] := by
  refine ⟨?_, by decide⟩
  intro parameters voltage_points g hv hp hvl hpl
  refine ⟨gme_diff_matrices_eq parameters voltage_points g hv hp hvl hpl, ?_, ?_⟩
  · intro i h1 h2
    rw [List.get?_eq_getElem?, List.getElem?_eq_getElem (by simp; omega)]
    simp only [List.getElem_map, List.getElem_range]
    have e : i - 1 + 1 = i := by omega
    rw [e]
  · intro hdet
    unfold gradient_min_evaluations
    rw [if_neg (by simp [hvl, hpl])]
    rcases parameters with _ | ⟨p0, ps⟩
    · simp at hpl
    rcases voltage_points with _ | ⟨v0, vs⟩
    · simp at hvl
    have hp0 : p0.length = g := hp p0 (List.mem_cons_self ..)
    have hv0 : v0.length = g := hv v0 (List.mem_cons_self ..)
    dsimp only
    rw [show (v0 :: vs).length = g + 1 from hvl, hp0, hv0]
    rw [gme_diff_matrices_eq (p0 :: ps) (v0 :: vs) g hv hp hvl hpl]
    simp only [Bind.bind, Except.bind]
    rw [if_neg hdet]

/-- Witness for claim C4 at the worked example (`g = 2`): the general clause
instantiates to the concrete gradient `[[2,0],[0,3]]`. -/
theorem gradient_min_evaluations_spec_witness :
    gradient_min_evaluations [[0, 0], [2, 0], [0, 3]] [[0, 0], [1, 0], [0, 1]]
      = .ok (matMul
          ((List.range 2).map fun r =>
            List.zipWith (· - ·) (([[0, 0], [2, 0], [0, 3]] : List (List ℚ)).getD (r + 1) [])
              (([[0, 0], [2, 0], [0, 3]] : List (List ℚ)).getD 0 []))
          (matInv ((List.range 2).map fun r =>
            List.zipWith (· - ·) (([[0, 0], [1, 0], [0, 1]] : List (List ℚ)).getD (r + 1) [])
              (([[0, 0], [1, 0], [0, 1]] : List (List ℚ)).getD 0 [])))) :=
  ((gradient_min_evaluations_spec.1 [[0, 0], [2, 0], [0, 3]] [[0, 0], [1, 0], [0, 1]] 2
    (by decide) (by decide) (by decide) (by decide)).2.2 (by decide))

/-- An invariant preserved by every fold step holds of any successful
`foldlM` result. -/
theorem foldlM_except_inv {σ α : Type} (P : σ → Prop) (step : σ → α → Except PyErr σ)
    (hstep : ∀ s a s', P s → step s a = .ok s' → P s') :
    ∀ (l : List α) (s s' : σ), P s → l.foldlM step s = .ok s' → P s'
  | [], s, s', hP, h => by
    simp only [List.foldlM_nil, pure, Except.pure] at h
    cases h
    exact hP
  | a :: l, s, s', hP, h => by
    rw [List.foldlM_cons] at h
    cases hs : step s a with
    | error e => rw [hs] at h; simp [Bind.bind, Except.bind] at h
    | ok s1 =>
      rw [hs] at h
      simp only [Bind.bind, Except.bind] at h
      exact foldlM_except_inv P step hstep l s1 s' (hstep s a s1 hP hs) h

/-- When the positive and negative raw-measurement series coincide (as they
do in the source, which reads the positive-detune group twice), the inner
per-evaluator update keeps the positive and negative accumulators equal. -/
theorem rawEvalStep_preserves (gate : String) (i : ℕ)
    (rm : PdSeries (List (List ℚ))) (ai : PdSeries (List (String × ℚ))) :
    ∀ (acc : RawGradAcc) (e : String) (acc' : RawGradAcc),
      acc.raw_pos = acc.raw_neg ∧ acc.par_pos = acc.par_neg →
      rawEvalStep gate i rm rm ai ai acc e = .ok acc' →
      acc'.raw_pos = acc'.raw_neg ∧ acc'.par_pos = acc'.par_neg := by
  intro acc e acc' hP h
  obtain ⟨hr, ha⟩ := hP
  unfold rawEvalStep at h
  rw [← hr, ← ha] at h
  cases hm : sGet rm e with
  | none => rw [hm] at h; simp [Option.elim, Bind.bind, Except.bind] at h
  | some m =>
    rw [hm] at h
    simp only [Option.elim, Bind.bind, Except.bind] at h
    by_cases hi : i = 0
    · rw [if_pos hi] at h
      cases hf1 : frameSet acc.raw_pos gate e m with
      | error er => rw [hf1] at h; simp at h
      | ok rp =>
        rw [hf1] at h
        simp only at h
        cases ha1 : sGet ai e with
        | none => rw [ha1] at h; simp [Option.elim] at h
        | some at1 =>
          rw [ha1] at h
          simp only [Option.elim] at h
          cases ha2 : frameSet acc.par_pos gate e at1 with
          | error er => rw [ha2] at h; simp at h
          | ok ap =>
            rw [ha2] at h
            simp only [Except.ok.injEq] at h
            rw [← h]
            exact ⟨rfl, rfl⟩
    · rw [if_neg hi] at h
      cases hg1 : frameGet acc.raw_pos gate e with
      | none => rw [hg1] at h; simp [Option.elim] at h
      | some cell =>
        rw [hg1] at h
        simp only [Option.elim] at h
        cases cell with
        | none => simp at h
        | some cellv =>
          simp only at h
          cases hf1 : frameSet acc.raw_pos gate e (cellv ++ m) with
          | error er => rw [hf1] at h; simp at h
          | ok rp =>
            rw [hf1] at h
            simp only [Except.ok.injEq] at h
            rw [← h]
            exact ⟨rfl, rfl⟩

/-- One `(repetition, gate)` iteration of the main loop keeps the positive
and negative accumulators equal: both are fed from the same
`positive_detune_run_…` group. -/
theorem rawGateStep_preserves (evalNames : List String) (gg : H5GradGroup) :
    ∀ (acc : RawGradAcc) (ig : ℕ × String) (acc' : RawGradAcc),
      acc.raw_pos = acc.raw_neg ∧ acc.par_pos = acc.par_neg →
      rawGateStep evalNames gg acc ig = .ok acc' →
      acc'.raw_pos = acc'.raw_neg ∧ acc'.par_pos = acc'.par_neg := by
  intro acc ig acc' hP h
  obtain ⟨i, gate⟩ := ig
  unfold rawGateStep at h
  dsimp only at h
  cases hg : lookupStr gg.detuneRuns ("positive_detune_run_" ++ gate ++ "_" ++ toString i) with
  | none => rw [hg] at h; simp [Option.elim, Bind.bind, Except.bind] at h
  | some pg =>
    rw [hg] at h
    simp only [Option.elim, Bind.bind, Except.bind] at h
    cases hL : load_raw_measurement_pd evalNames pg with
    | error e => rw [hL] at h; simp at h
    | ok pr =>
      rw [hL] at h
      obtain ⟨rm, ai⟩ := pr
      simp only at h
      exact foldlM_except_inv _ (rawEvalStep gate i rm rm ai ai)
        (rawEvalStep_preserves gate i rm ai) evalNames acc acc' hP h

/-- Claim C6: `load_raw_measurement_gradient_calculation` reads the
`positive_detune_run_<gate>_<i>` group for BOTH accumulators, so for every
container file the returned negative-detune tables (raw and attribute) equal
the positive-detune tables cell for cell; on the concrete two-repetition file
the repetitions are concatenated along axis 0 per (gate, evaluator) cell —
`[[1,2]] ++ [[3,4]]` — and the distinct `negative_detune_run_…` data
(`[[9,9]]`, `[[8,8]]`) is never read. -/
theorem raw_measurement_negative_equals_positive :
    (∀ (f : H5File) (k n : ℕ) (inputs : List String),
      (load_raw_measurement_gradient_calculation f k n inputs).map
          RawGradResult.raw_measurement_negative_detune
        = (load_raw_measurement_gradient_calculation f k n inputs).map
          RawGradResult.raw_measurement_positive_detune
      ∧ (load_raw_measurement_gradient_calculation f k n inputs).map
          RawGradResult.parameter_negative_detune
        = (load_raw_measurement_gradient_calculation f k n inputs).map
          RawGradResult.parameter_positive_detune) ∧
    load_raw_measurement_gradient_calculation exampleRawFile 1 0 [] =
      .ok ⟨[("g", [("evaluator_A", some [[1, 2], [3, 4]])])],
           [("g", [("evaluator_A", some [[1, 2], [3, 4]])])],
           [("g", [("evaluator_A", some [("parameter_x", 10)])])],
           [("g", [("evaluator_A", some [("parameter_x", 10)])])],
           2, 7/2⟩ := by
  refine ⟨?_, by decide⟩
  intro f k n inputs
  unfold load_raw_measurement_gradient_calculation
  cases hE : load_evaluator_names f n inputs with
  | error e => simp [Bind.bind, Except.bind, Except.map, hE]
  | ok en =>
    obtain ⟨evalNames, inputs1⟩ := en
    cases hG : load_gradient_group f k n inputs1 with
    | error e => simp [Bind.bind, Except.bind, Except.map, hE, hG]
    | ok gp =>
      obtain ⟨gg, rest⟩ := gp
      simp only [Bind.bind, Except.bind, hE, hG]
      cases hF : ((List.range gg.n_repetitions).flatMap
          (fun i => f.tunable_gate_names.map (fun g => (i, g)))).foldlM
          (rawGateStep evalNames gg)
          ⟨emptyFrame f.tunable_gate_names evalNames,
           emptyFrame f.tunable_gate_names evalNames,
           emptyFrame f.tunable_gate_names evalNames,
           emptyFrame f.tunable_gate_names evalNames⟩ with
      | error e => simp [Except.map, hF]
      | ok final =>
        have hinv := foldlM_except_inv
          (fun acc : RawGradAcc => acc.raw_pos = acc.raw_neg ∧ acc.par_pos = acc.par_neg)
          (rawGateStep evalNames gg) (rawGateStep_preserves evalNames gg) _ _ _
          ⟨rfl, rfl⟩ hF
        simp [Except.map, hF, hinv.1, hinv.2]
